import Mathlib

/-
Shallow embedding of the Bmad-X tracking routines (src/bmadx/track.py)
over the real numbers, together with proofs of the specification's
claims about them.  Pure arithmetic on floats is modelled by exact real
arithmetic; Python divisions that can raise ZeroDivisionError are
additionally modelled by an Option-valued variant with guarded division.
-/

namespace BmadX

/-- Phase space coordinates of a particle (Bmad manual section 15.4.2),
with accumulated path length `s`, reference momentum `p0c` and
reference mass `mc2`; mirrors the `Particle` namedtuple. -/
structure Particle where
  x : ℝ
  px : ℝ
  y : ℝ
  py : ℝ
  z : ℝ
  pz : ℝ
  s : ℝ
  p0c : ℝ
  mc2 : ℝ

/-- Drift element: mirrors the `Drift` namedtuple (single field `L`). -/
structure Drift where
  L : ℝ

/-- Quadrupole element: mirrors the `Quadrupole` namedtuple with fields
`L K1 NUM_STEPS X_OFFSET Y_OFFSET TILT`. -/
structure Quadrupole where
  L : ℝ
  K1 : ℝ
  NUM_STEPS : ℕ
  X_OFFSET : ℝ
  Y_OFFSET : ℝ
  TILT : ℝ

/-- Routine to calculate Sqrt[1+x] - 1 to machine precision: mirrors
`sqrt_one` inside `make_track_a_drift`. -/
noncomputable def sqrt_one (x : ℝ) : ℝ :=
  let sq := Real.sqrt (1 + x)
  let rad := sq + 1
  x / rad

/-- Tracks the incoming Particle through a drift element and returns the
outgoing particle: mirrors `track_a_drift` (Bmad manual section 24.9). -/
noncomputable def track_a_drift (p_in : Particle) (drift : Drift) : Particle :=
  let L := drift.L
  let P := 1 + p_in.pz
  let Px := p_in.px / P
  let Py := p_in.py / P
  let Pxy2 := Px ^ 2 + Py ^ 2
  let Pl := Real.sqrt (1 - Pxy2)
  let x := p_in.x + L * Px / Pl
  let y := p_in.y + L * Py / Pl
  let dz := L * (sqrt_one (p_in.mc2 ^ 2 * (2 * p_in.pz + p_in.pz ^ 2) /
                   ((p_in.p0c * P) ^ 2 + p_in.mc2 ^ 2))
                 + sqrt_one (-Pxy2) / Pl)
  { x := x, px := p_in.px, y := y, py := p_in.py, z := p_in.z + dz,
    pz := p_in.pz, s := p_in.s + L, p0c := p_in.p0c, mc2 := p_in.mc2 }

/-- Result of `quad_mat2_calc`: the 2x2 transfer matrix elements and the
coefficients for the change in z position (the tuple
`a11, a12, a21, a22, c1, c2, c3` the Python function returns). -/
structure QuadMat where
  a11 : ℝ
  a12 : ℝ
  a21 : ℝ
  a22 : ℝ
  c1 : ℝ
  c2 : ℝ
  c3 : ℝ

/-- Returns 2x2 transfer matrix elements and the coefficients to
calculate the change in z position: mirrors `quad_mat2_calc` inside
`make_track_a_quadrupole`.  The Python boolean multipliers
`(k1<=0)` and `(k1>0)` are mutually exclusive, so they are embedded as
an if-then-else. -/
noncomputable def quad_mat2_calc (k1 length rel_p : ℝ) : QuadMat :=
  let eps : ℝ := 2220446049250313 / 10 ^ 31
  let sqrt_k := Real.sqrt (|k1| + eps)
  let sk_l := sqrt_k * length
  let cx := if k1 ≤ 0 then Real.cos sk_l else Real.cosh sk_l
  let sx := if k1 ≤ 0 then Real.sin sk_l / sqrt_k else Real.sinh sk_l / sqrt_k
  { a11 := cx
    a12 := sx / rel_p
    a21 := k1 * sx * rel_p
    a22 := cx
    c1 := k1 * (-cx * sx + length) / 4
    c2 := -k1 * sx ^ 2 / (2 * rel_p)
    c3 := -(cx * sx + length) / (4 * rel_p ^ 2) }

/-- Corrects the change in z-coordinate due to speed < c_light: mirrors
`low_energy_z_correction`.  The two Python boolean multipliers are
mutually exclusive, embedded as an if-then-else. -/
noncomputable def low_energy_z_correction (pz p0c mass ds : ℝ) : ℝ :=
  let beta := (1 + pz) * p0c / Real.sqrt (((1 + pz) * p0c) ^ 2 + mass ^ 2)
  let beta0 := p0c / Real.sqrt (p0c ^ 2 + mass ^ 2)
  let e_tot := Real.sqrt (p0c ^ 2 + mass ^ 2)
  let evaluation := mass * (beta0 * pz) ^ 2
  if evaluation < 3 / 10 ^ 7 * e_tot then
    ds * pz * (1 - 3 * (pz * beta0 ^ 2) / 2
               + pz ^ 2 * beta0 ^ 2 * (2 * beta0 ^ 2 - (mass / e_tot) ^ 2 / 2))
      * (mass / e_tot) ^ 2
  else
    ds * (beta - beta0) / beta0

/-- Transform from the laboratory coordinates to the entrance element
coordinates (transverse only): mirrors `offset_particle_entrance`;
returns `(x_ele, y_ele, px_ele, py_ele)`. -/
noncomputable def offset_particle_entrance (x_offset y_offset tilt x_lab y_lab px_lab py_lab : ℝ) :
    ℝ × ℝ × ℝ × ℝ :=
  let s := Real.sin tilt
  let c := Real.cos tilt
  let x_ele_int := x_lab - x_offset
  let y_ele_int := y_lab - y_offset
  (x_ele_int * c + y_ele_int * s, -x_ele_int * s + y_ele_int * c,
   px_lab * c + py_lab * s, -px_lab * s + py_lab * c)

/-- Transforms from the exit element reference frame to the laboratory
reference frame (transverse only): mirrors `offset_particle_exit`;
returns `(x_lab, y_lab, px_lab, py_lab)`. -/
noncomputable def offset_particle_exit (x_offset y_offset tilt x_ele y_ele px_ele py_ele : ℝ) :
    ℝ × ℝ × ℝ × ℝ :=
  let s := Real.sin tilt
  let c := Real.cos tilt
  let x_lab_int := x_ele * c - y_ele * s
  let y_lab_int := x_ele * s + y_ele * c
  (x_lab_int + x_offset, y_lab_int + y_offset,
   px_ele * c - py_ele * s, px_ele * s + py_ele * c)

/-- The loop state of `track_a_quadrupole`: the coordinates the slice
loop updates (`pz` is read-only in the loop and stays a parameter). -/
structure QuadState where
  x : ℝ
  px : ℝ
  y : ℝ
  py : ℝ
  z : ℝ

/-- One iteration of the slice loop in `track_a_quadrupole`: recompute
`rel_p` and the effective `k1 = b1/(l*rel_p)`, build the two per-plane
matrices with strengths `-k1` (horizontal) and `+k1` (vertical), update
`z` from the pre-slice coordinates, then apply the matrices. -/
noncomputable def quad_step (b1 l step_len p0c mc2 pz : ℝ) (st : QuadState) : QuadState :=
  let rel_p := 1 + pz
  let k1 := b1 / (l * rel_p)
  let mx := quad_mat2_calc (-k1) step_len rel_p
  let my := quad_mat2_calc k1 step_len rel_p
  let z := st.z +
    mx.c1 * st.x ^ 2 + mx.c2 * st.x * st.px + mx.c3 * st.px ^ 2 +
    my.c1 * st.y ^ 2 + my.c2 * st.y * st.py + my.c3 * st.py ^ 2
  let x_next := mx.a11 * st.x + mx.a12 * st.px
  let px_next := mx.a21 * st.x + mx.a22 * st.px
  let y_next := my.a11 * st.y + my.a12 * st.py
  let py_next := my.a21 * st.y + my.a22 * st.py
  let z := z + low_energy_z_correction pz p0c mc2 step_len
  { x := x_next, px := px_next, y := y_next, py := py_next, z := z }

/-- Tracks the incoming Particle through a quad element and returns the
outgoing particle: mirrors `track_a_quadrupole` (Bmad manual section
24.15).  The `for i in range(n_step)` loop iterates `quad_step`. -/
noncomputable def track_a_quadrupole (p_in : Particle) (quad : Quadrupole) : Particle :=
  let l := quad.L
  let n_step := quad.NUM_STEPS
  let step_len := l / n_step
  let b1 := quad.K1 * l
  let o := offset_particle_entrance quad.X_OFFSET quad.Y_OFFSET quad.TILT
             p_in.x p_in.y p_in.px p_in.py
  let st0 : QuadState := ⟨o.1, o.2.2.1, o.2.1, o.2.2.2, p_in.z⟩
  let st := (quad_step b1 l step_len p_in.p0c p_in.mc2 p_in.pz)^[n_step] st0
  let oe := offset_particle_exit quad.X_OFFSET quad.Y_OFFSET quad.TILT
              st.x st.y st.px st.py
  { x := oe.1, px := oe.2.2.1, y := oe.2.1, py := oe.2.2.2,
    z := st.z, pz := p_in.pz, s := p_in.s + l, p0c := p_in.p0c, mc2 := p_in.mc2 }

/-- A lattice element: `Drift` or `Quadrupole` are the kinds with
registered tracking functions in `track_a_lattice`; `other` models any
further namedtuple kind (carrying its type name, used as the dispatch
key, and its `L` field, which `stub_element` rewrites). -/
inductive Element where
  | drift (d : Drift)
  | quadrupole (q : Quadrupole)
  | other (kind : String) (L : ℝ)

/-- Tracking error raised by the Lattice Driver: the `KeyError` from a
dictionary lookup of an element kind with no registered map. -/
inductive TrackError where
  | unknownElementKind (kind : String)

/-- Whether an element's kind has a registered tracking function in the
dispatch dictionary of `track_a_lattice`. -/
def known : Element → Bool
  | Element.drift _ => true
  | Element.quadrupole _ => true
  | Element.other _ _ => false

/-- The length attribute `L` of an element. -/
def eleL : Element → ℝ
  | Element.drift d => d.L
  | Element.quadrupole q => q.L
  | Element.other _ L => L

/-- Replace the `L` field of an element, keeping every other attribute:
mirrors the namedtuple method call in `stub_element`. -/
def replaceL : Element → ℝ → Element
  | Element.drift _, v => Element.drift ⟨v⟩
  | Element.quadrupole q, v =>
      Element.quadrupole ⟨v, q.K1, q.NUM_STEPS, q.X_OFFSET, q.Y_OFFSET, q.TILT⟩
  | Element.other kind _, v => Element.other kind v

/-- Two elements are of the same kind with all attributes other than `L`
equal. -/
def sameExceptL : Element → Element → Prop
  | Element.drift _, Element.drift _ => True
  | Element.quadrupole q, Element.quadrupole r =>
      q.K1 = r.K1 ∧ q.NUM_STEPS = r.NUM_STEPS ∧ q.X_OFFSET = r.X_OFFSET ∧
      q.Y_OFFSET = r.Y_OFFSET ∧ q.TILT = r.TILT
  | Element.other k _, Element.other k2 _ => k = k2
  | _, _ => False

/-- One step of the Lattice Driver: look up the tracking function for
the element's kind and apply it; an unregistered kind is the fatal
`KeyError` of the dictionary dispatch. -/
noncomputable def track_element (p : Particle) (ele : Element) : Except TrackError Particle :=
  match ele with
  | Element.drift d => Except.ok (track_a_drift p d)
  | Element.quadrupole q => Except.ok (track_a_quadrupole p q)
  | Element.other kind _ => Except.error (TrackError.unknownElementKind kind)

/-- Tracks an incoming Particle through a lattice and returns the list
of particles after each element (input particle first): mirrors
`track_a_lattice`; a raised `KeyError` aborts the run with no list. -/
noncomputable def track_a_lattice (p_in : Particle) :
    List Element → Except TrackError (List Particle)
  | [] => Except.ok [p_in]
  | ele :: rest =>
    match track_element p_in ele with
    | Except.error err => Except.error err
    | Except.ok p1 =>
      match track_a_lattice p1 rest with
      | Except.error err => Except.error err
      | Except.ok ps => Except.ok (p_in :: ps)

/-- Divides an element into `n` equal length elements and returns the
list of these short elements: mirrors `stub_element`. -/
noncomputable def stub_element (ele : Element) (n : ℕ) : List Element :=
  let short_L := eleL ele / n
  let short_ele := replaceL ele short_L
  List.replicate n short_ele

/-- Divides every element in the lattice into `n` elements each and
returns the divided lattice: mirrors `stub_lattice`. -/
noncomputable def stub_lattice (lattice : List Element) (n : ℕ) : List Element :=
  match lattice with
  | [] => []
  | ele :: rest => stub_element ele n ++ stub_lattice rest n

/-- Guarded real division: `none` exactly when the denominator is zero,
modelling Python's `ZeroDivisionError` for float division. -/
noncomputable def div_chk (a b : ℝ) : Option ℝ :=
  if b = 0 then none else some (a / b)

/-- Division-checked variant of `quad_mat2_calc`: every division of the
Python body is guarded.  Both `sin(sk_l)/sqrt_k` and `sinh(sk_l)/sqrt_k`
are evaluated before the boolean multipliers select one, as in the
source. -/
noncomputable def quad_mat2_calc_div (k1 length rel_p : ℝ) : Option QuadMat :=
  let eps : ℝ := 2220446049250313 / 10 ^ 31
  let sqrt_k := Real.sqrt (|k1| + eps)
  let sk_l := sqrt_k * length
  (div_chk (Real.sin sk_l) sqrt_k).bind fun sxt =>
  (div_chk (Real.sinh sk_l) sqrt_k).bind fun sxh =>
  let cx := if k1 ≤ 0 then Real.cos sk_l else Real.cosh sk_l
  let sx := if k1 ≤ 0 then sxt else sxh
  (div_chk sx rel_p).bind fun a12 =>
  (div_chk (-k1 * sx ^ 2) (2 * rel_p)).bind fun c2 =>
  (div_chk (-(cx * sx + length)) (4 * rel_p ^ 2)).map fun c3 =>
    ⟨cx, a12, k1 * sx * rel_p, cx, k1 * (-cx * sx + length) / 4, c2, c3⟩

/-- Division-checked variant of `low_energy_z_correction`: both branch
expressions are evaluated (the Python source multiplies each by a
boolean) so all their divisions are guarded unconditionally. -/
noncomputable def low_energy_z_correction_div (pz p0c mass ds : ℝ) : Option ℝ :=
  (div_chk ((1 + pz) * p0c) (Real.sqrt (((1 + pz) * p0c) ^ 2 + mass ^ 2))).bind fun beta =>
  (div_chk p0c (Real.sqrt (p0c ^ 2 + mass ^ 2))).bind fun beta0 =>
  let e_tot := Real.sqrt (p0c ^ 2 + mass ^ 2)
  let evaluation := mass * (beta0 * pz) ^ 2
  (div_chk mass e_tot).bind fun mr =>
  (div_chk (ds * (beta - beta0)) beta0).map fun t2 =>
    if evaluation < 3 / 10 ^ 7 * e_tot then
      ds * pz * (1 - 3 * (pz * beta0 ^ 2) / 2
                 + pz ^ 2 * beta0 ^ 2 * (2 * beta0 ^ 2 - mr ^ 2 / 2)) * mr ^ 2
    else t2

/-- Division-checked variant of `quad_step`: the first division of each
loop iteration is the effective strength `k1 = b1/(l*rel_p)`. -/
noncomputable def quad_step_div (b1 l step_len p0c mc2 pz : ℝ) (st : QuadState) :
    Option QuadState :=
  let rel_p := 1 + pz
  (div_chk b1 (l * rel_p)).bind fun k1 =>
  (quad_mat2_calc_div (-k1) step_len rel_p).bind fun mx =>
  (quad_mat2_calc_div k1 step_len rel_p).bind fun my =>
  (low_energy_z_correction_div pz p0c mc2 step_len).map fun dz =>
    let z := st.z +
      mx.c1 * st.x ^ 2 + mx.c2 * st.x * st.px + mx.c3 * st.px ^ 2 +
      my.c1 * st.y ^ 2 + my.c2 * st.y * st.py + my.c3 * st.py ^ 2
    ⟨mx.a11 * st.x + mx.a12 * st.px, mx.a21 * st.x + mx.a22 * st.px,
     my.a11 * st.y + my.a12 * st.py, my.a21 * st.y + my.a22 * st.py,
     z + dz⟩

/-- Iterate a fallible step `n` times, aborting at the first failure:
models a Python loop whose body may raise. -/
def iterate_opt {α : Type} (f : α → Option α) : ℕ → α → Option α
  | 0, a => some a
  | n + 1, a => (f a).bind (iterate_opt f n)

/-- Division-checked variant of `track_a_quadrupole`: `none` exactly
when the Python function raises `ZeroDivisionError` (including the
integer division `l/n_step` when `NUM_STEPS = 0`). -/
noncomputable def track_a_quadrupole_div (p_in : Particle) (quad : Quadrupole) :
    Option Particle :=
  if quad.NUM_STEPS = 0 then none else
  let l := quad.L
  let step_len := l / quad.NUM_STEPS
  let b1 := quad.K1 * l
  let o := offset_particle_entrance quad.X_OFFSET quad.Y_OFFSET quad.TILT
             p_in.x p_in.y p_in.px p_in.py
  let st0 : QuadState := ⟨o.1, o.2.2.1, o.2.1, o.2.2.2, p_in.z⟩
  (iterate_opt (quad_step_div b1 l step_len p_in.p0c p_in.mc2 p_in.pz)
      quad.NUM_STEPS st0).map fun st =>
    let oe := offset_particle_exit quad.X_OFFSET quad.Y_OFFSET quad.TILT
                st.x st.y st.px st.py
    { x := oe.1, px := oe.2.2.1, y := oe.2.1, py := oe.2.2.2,
      z := st.z, pz := p_in.pz, s := p_in.s + l, p0c := p_in.p0c, mc2 := p_in.mc2 }

/-
Helper lemmas shared by the claim theorems.
-/

/-- A known-kind element always tracks successfully, and the tracking
function advances `s` by exactly the element's length. -/
theorem known_track_ok (p : Particle) (e : Element) (he : known e = true) :
    ∃ p2, track_element p e = Except.ok p2 ∧ p2.s = p.s + eleL e := by
  cases e with
  | drift d => exact ⟨_, rfl, rfl⟩
  | quadrupole q => exact ⟨_, rfl, rfl⟩
  | other kind L => simp [known] at he

/-
Claim theorems.
-/

/-- C6: for every u ≥ -1, the reformulated expression
`sqrt_one u = u/(sqrt(1+u)+1)` equals `sqrt(1+u) - 1` exactly in real
arithmetic. -/
theorem sqrt_one_eq_sqrt_sub_one (u : ℝ) (h : -1 ≤ u) :
    sqrt_one u = Real.sqrt (1 + u) - 1 := by
  have h0 : (0 : ℝ) ≤ 1 + u := by linarith
  have hs : Real.sqrt (1 + u) ^ 2 = 1 + u := Real.sq_sqrt h0
  have hpos : (0 : ℝ) < Real.sqrt (1 + u) + 1 := by
    have := Real.sqrt_nonneg (1 + u)
    linarith
  unfold sqrt_one
  rw [div_eq_iff (ne_of_gt hpos)]
  nlinarith [hs]

/-- Witness for C6 at the concrete input u = 3. -/
theorem sqrt_one_eq_sqrt_sub_one_witness :
    (-1 : ℝ) ≤ 3 ∧ sqrt_one 3 = Real.sqrt (1 + 3) - 1 :=
  ⟨by norm_num, sqrt_one_eq_sqrt_sub_one 3 (by norm_num)⟩

/-- C1: for every Particle with 1+pz ≠ 0 and transverse momentum
squared Pxy2 < 1 and every Drift, `track_a_drift` returns the particle
with `x' = x + L*Px/Pl`, `y' = y + L*Py/Pl` and
`z' = z + L*(sqrt_one(mc2^2*(2pz+pz^2)/((p0c*P)^2+mc2^2)) + sqrt_one(-Pxy2)/Pl)`,
where `P = 1+pz`, `Px = px/P`, `Py = py/P`, `Pl = sqrt(1-Pxy2)`. -/
theorem drift_map_formulas (p : Particle) (d : Drift)
    (h1 : 1 + p.pz ≠ 0)
    (h2 : (p.px / (1 + p.pz)) ^ 2 + (p.py / (1 + p.pz)) ^ 2 < 1) :
    (track_a_drift p d).x
      = p.x + d.L * (p.px / (1 + p.pz)) /
          Real.sqrt (1 - ((p.px / (1 + p.pz)) ^ 2 + (p.py / (1 + p.pz)) ^ 2)) ∧
    (track_a_drift p d).y
      = p.y + d.L * (p.py / (1 + p.pz)) /
          Real.sqrt (1 - ((p.px / (1 + p.pz)) ^ 2 + (p.py / (1 + p.pz)) ^ 2)) ∧
    (track_a_drift p d).z
      = p.z + d.L *
          (sqrt_one (p.mc2 ^ 2 * (2 * p.pz + p.pz ^ 2) /
             ((p.p0c * (1 + p.pz)) ^ 2 + p.mc2 ^ 2))
           + sqrt_one (-((p.px / (1 + p.pz)) ^ 2 + (p.py / (1 + p.pz)) ^ 2)) /
               Real.sqrt (1 - ((p.px / (1 + p.pz)) ^ 2 + (p.py / (1 + p.pz)) ^ 2))) :=
  ⟨rfl, rfl, rfl⟩

/-- Witness for C1 at a concrete particle and drift. -/
theorem drift_map_formulas_witness :
    (1 : ℝ) + (Particle.mk 1 0 2 0 3 0 4 5 6).pz ≠ 0 ∧
    ((Particle.mk 1 0 2 0 3 0 4 5 6).px / (1 + (Particle.mk 1 0 2 0 3 0 4 5 6).pz)) ^ 2
      + ((Particle.mk 1 0 2 0 3 0 4 5 6).py / (1 + (Particle.mk 1 0 2 0 3 0 4 5 6).pz)) ^ 2 < 1 ∧
    (track_a_drift (Particle.mk 1 0 2 0 3 0 4 5 6) (Drift.mk 7)).x
      = (Particle.mk 1 0 2 0 3 0 4 5 6).x + (Drift.mk 7).L *
          ((Particle.mk 1 0 2 0 3 0 4 5 6).px / (1 + (Particle.mk 1 0 2 0 3 0 4 5 6).pz)) /
          Real.sqrt (1 - (((Particle.mk 1 0 2 0 3 0 4 5 6).px /
              (1 + (Particle.mk 1 0 2 0 3 0 4 5 6).pz)) ^ 2 +
            ((Particle.mk 1 0 2 0 3 0 4 5 6).py /
              (1 + (Particle.mk 1 0 2 0 3 0 4 5 6).pz)) ^ 2)) := by
  have h1 : (1 : ℝ) + (Particle.mk 1 0 2 0 3 0 4 5 6).pz ≠ 0 := by norm_num
  have h2 : ((Particle.mk 1 0 2 0 3 0 4 5 6).px / (1 + (Particle.mk 1 0 2 0 3 0 4 5 6).pz)) ^ 2
      + ((Particle.mk 1 0 2 0 3 0 4 5 6).py / (1 + (Particle.mk 1 0 2 0 3 0 4 5 6).pz)) ^ 2
      < 1 := by norm_num
  exact ⟨h1, h2, (drift_map_formulas (Particle.mk 1 0 2 0 3 0 4 5 6) (Drift.mk 7) h1 h2).1⟩

/-- C3: both maps return a Particle whose `p0c` and `mc2` equal the
input particle's `p0c` and `mc2`. -/
theorem reference_invariance (p : Particle) (d : Drift) (q : Quadrupole) :
    (track_a_drift p d).p0c = p.p0c ∧ (track_a_drift p d).mc2 = p.mc2 ∧
    (track_a_quadrupole p q).p0c = p.p0c ∧ (track_a_quadrupole p q).mc2 = p.mc2 :=
  ⟨rfl, rfl, rfl, rfl⟩

/-- C4: both maps advance `s` by exactly the element's length `L`, and
for the quadrupole this is independent of `NUM_STEPS ≥ 1`. -/
theorem path_length_additivity (p : Particle) (d : Drift) (q : Quadrupole)
    (hn : 1 ≤ q.NUM_STEPS) :
    (track_a_drift p d).s = p.s + d.L ∧
    (track_a_quadrupole p q).s = p.s + q.L :=
  ⟨rfl, rfl⟩

/-- Witness for C4 at a concrete particle, drift and quadrupole. -/
theorem path_length_additivity_witness :
    1 ≤ (Quadrupole.mk 1 2 3 0 0 0).NUM_STEPS ∧
    (track_a_drift (Particle.mk 0 0 0 0 0 0 0 1 1) (Drift.mk 2)).s
      = (Particle.mk 0 0 0 0 0 0 0 1 1).s + (Drift.mk 2).L ∧
    (track_a_quadrupole (Particle.mk 0 0 0 0 0 0 0 1 1) (Quadrupole.mk 1 2 3 0 0 0)).s
      = (Particle.mk 0 0 0 0 0 0 0 1 1).s + (Quadrupole.mk 1 2 3 0 0 0).L := by
  have hn : 1 ≤ (Quadrupole.mk 1 2 3 0 0 0).NUM_STEPS := by decide
  exact ⟨hn,
    (path_length_additivity (Particle.mk 0 0 0 0 0 0 0 1 1) (Drift.mk 2)
      (Quadrupole.mk 1 2 3 0 0 0) hn).1,
    (path_length_additivity (Particle.mk 0 0 0 0 0 0 0 1 1) (Drift.mk 2)
      (Quadrupole.mk 1 2 3 0 0 0) hn).2⟩

/-- C10: both maps return `pz` unchanged, and the drift additionally
returns `px` and `py` unchanged. -/
theorem momentum_preservation (p : Particle) (d : Drift) (q : Quadrupole) :
    (track_a_drift p d).pz = p.pz ∧ (track_a_drift p d).px = p.px ∧
    (track_a_drift p d).py = p.py ∧ (track_a_quadrupole p q).pz = p.pz :=
  ⟨rfl, rfl, rfl, rfl⟩

/-- C2: for every effective strength k1, slice length and
`rel_p = 1+pz ≠ 0`, `quad_mat2_calc` computes `sqrt_k = sqrt(|k1|+eps)`
with `eps = 2.220446049250313e-16`, `cx`/`sx` trigonometric when
`k1 ≤ 0` and hyperbolic when `k1 > 0`, and returns
`a11 = a22 = cx`, `a12 = sx/rel_p`, `a21 = k1*sx*rel_p`,
`c1 = k1*(-cx*sx+length)/4`, `c2 = -k1*sx^2/(2*rel_p)`,
`c3 = -(cx*sx+length)/(4*rel_p^2)`; and the slice step of
`track_a_quadrupole` invokes it with strength `-k1` for the horizontal
plane and `+k1` for the vertical plane, where
`k1 = (K1*L)/(L*(1+pz))`. -/
theorem quad_mat2_calc_formulas (k1 length pz : ℝ) (h : (1 : ℝ) + pz ≠ 0) :
    (∃ sqrt_k cx sx : ℝ,
      sqrt_k = Real.sqrt (|k1| + 2220446049250313 / 10 ^ 31) ∧
      cx = (if k1 ≤ 0 then Real.cos (sqrt_k * length) else Real.cosh (sqrt_k * length)) ∧
      sx = (if k1 ≤ 0 then Real.sin (sqrt_k * length) / sqrt_k
            else Real.sinh (sqrt_k * length) / sqrt_k) ∧
      quad_mat2_calc k1 length (1 + pz) =
        QuadMat.mk cx (sx / (1 + pz)) (k1 * sx * (1 + pz)) cx
          (k1 * (-cx * sx + length) / 4) (-k1 * sx ^ 2 / (2 * (1 + pz)))
          (-(cx * sx + length) / (4 * (1 + pz) ^ 2))) ∧
    (∀ K1 L sl p0c mc2 : ℝ, ∀ st : QuadState,
      (quad_step (K1 * L) L sl p0c mc2 pz st).x
        = (quad_mat2_calc (-(K1 * L / (L * (1 + pz)))) sl (1 + pz)).a11 * st.x
          + (quad_mat2_calc (-(K1 * L / (L * (1 + pz)))) sl (1 + pz)).a12 * st.px ∧
      (quad_step (K1 * L) L sl p0c mc2 pz st).px
        = (quad_mat2_calc (-(K1 * L / (L * (1 + pz)))) sl (1 + pz)).a21 * st.x
          + (quad_mat2_calc (-(K1 * L / (L * (1 + pz)))) sl (1 + pz)).a22 * st.px ∧
      (quad_step (K1 * L) L sl p0c mc2 pz st).y
        = (quad_mat2_calc (K1 * L / (L * (1 + pz))) sl (1 + pz)).a11 * st.y
          + (quad_mat2_calc (K1 * L / (L * (1 + pz))) sl (1 + pz)).a12 * st.py ∧
      (quad_step (K1 * L) L sl p0c mc2 pz st).py
        = (quad_mat2_calc (K1 * L / (L * (1 + pz))) sl (1 + pz)).a21 * st.y
          + (quad_mat2_calc (K1 * L / (L * (1 + pz))) sl (1 + pz)).a22 * st.py) := by
  constructor
  · exact ⟨_, _, _, rfl, rfl, rfl, rfl⟩
  · intro K1 L sl p0c mc2 st
    exact ⟨rfl, rfl, rfl, rfl⟩

/-- Witness for C2 at k1 = 1, length = 2, pz = 0. -/
theorem quad_mat2_calc_formulas_witness :
    (1 : ℝ) + 0 ≠ 0 ∧
    (∃ sqrt_k cx sx : ℝ,
      sqrt_k = Real.sqrt (|(1 : ℝ)| + 2220446049250313 / 10 ^ 31) ∧
      cx = (if (1 : ℝ) ≤ 0 then Real.cos (sqrt_k * 2) else Real.cosh (sqrt_k * 2)) ∧
      sx = (if (1 : ℝ) ≤ 0 then Real.sin (sqrt_k * 2) / sqrt_k
            else Real.sinh (sqrt_k * 2) / sqrt_k) ∧
      quad_mat2_calc 1 2 (1 + 0) =
        QuadMat.mk cx (sx / (1 + 0)) (1 * sx * (1 + 0)) cx
          (1 * (-cx * sx + 2) / 4) (-1 * sx ^ 2 / (2 * (1 + 0)))
          (-(cx * sx + 2) / (4 * (1 + 0) ^ 2))) := by
  have h : (1 : ℝ) + 0 ≠ 0 := by norm_num
  exact ⟨h, (quad_mat2_calc_formulas 1 2 0 h).1⟩

/-- C5: tracking an initial Particle through a lattice of k elements of
known kinds returns exactly k+1 particles, entry 0 being the input and
entry i+1 the result of applying the map for element i to entry i. -/
theorem lattice_trajectory (p : Particle) (lattice : List Element)
    (h : ∀ e ∈ lattice, known e = true) :
    ∃ ps : List Particle,
      track_a_lattice p lattice = Except.ok ps ∧
      ps.length = lattice.length + 1 ∧
      ps[0]? = some p ∧
      ∀ i < lattice.length, ∃ pi pj e,
        ps[i]? = some pi ∧ ps[i + 1]? = some pj ∧
        lattice[i]? = some e ∧ track_element pi e = Except.ok pj := by
  induction lattice generalizing p with
  | nil =>
    refine ⟨[p], rfl, rfl, by simp, ?_⟩
    intro i hi
    simp at hi
  | cons e rest ih =>
    obtain ⟨p1, hp1, -⟩ := known_track_ok p e (h e (by simp))
    obtain ⟨ps, hps, hlen, h0, hstep⟩ := ih p1 (fun e2 he2 => h e2 (by simp [he2]))
    refine ⟨p :: ps, ?_, by simp [hlen], by simp, ?_⟩
    · simp [track_a_lattice, hp1, hps]
    · intro i hi
      cases i with
      | zero =>
        exact ⟨p, p1, e, by simp, by simpa using h0, by simp, hp1⟩
      | succ j =>
        obtain ⟨pi, pj, e2, hh1, hh2, hh3, hh4⟩ := hstep j (by simpa using hi)
        exact ⟨pi, pj, e2, by simpa using hh1, by simpa using hh2, by simpa using hh3, hh4⟩

/-- Witness for C5 on a one-element lattice. -/
theorem lattice_trajectory_witness :
    (∀ e ∈ [Element.drift (Drift.mk 1)], known e = true) ∧
    (∃ ps : List Particle,
      track_a_lattice (Particle.mk 0 0 0 0 0 0 0 1 1) [Element.drift (Drift.mk 1)]
        = Except.ok ps ∧
      ps.length = [Element.drift (Drift.mk 1)].length + 1 ∧
      ps[0]? = some (Particle.mk 0 0 0 0 0 0 0 1 1) ∧
      ∀ i < [Element.drift (Drift.mk 1)].length, ∃ pi pj e,
        ps[i]? = some pi ∧ ps[i + 1]? = some pj ∧
        [Element.drift (Drift.mk 1)][i]? = some e ∧
        track_element pi e = Except.ok pj) := by
  have h : ∀ e ∈ [Element.drift (Drift.mk 1)], known e = true := by
    intro e he
    simp at he
    simp [he, known]
  exact ⟨h, lattice_trajectory (Particle.mk 0 0 0 0 0 0 0 1 1)
    [Element.drift (Drift.mk 1)] h⟩

/-- Tracking through a lattice of known-kind elements succeeds and the
last particle's `s` is the initial `s` plus the sum of the element
lengths. -/
theorem track_lattice_last_s (lat : List Element) (p : Particle)
    (h : ∀ e ∈ lat, known e = true) :
    ∃ ps q, track_a_lattice p lat = Except.ok ps ∧ ps.getLast? = some q ∧
      q.s = p.s + (lat.map eleL).sum := by
  induction lat generalizing p with
  | nil => exact ⟨[p], p, rfl, rfl, by simp⟩
  | cons e rest ih =>
    obtain ⟨p1, hp1, hs⟩ := known_track_ok p e (h e (by simp))
    obtain ⟨ps, q, hps, hlast, hqs⟩ := ih p1 (fun e2 he2 => h e2 (by simp [he2]))
    refine ⟨p :: ps, q, by simp [track_a_lattice, hp1, hps], ?_, ?_⟩
    · cases ps with
      | nil => simp at hlast
      | cons a t => simpa [List.getLast?_cons_cons] using hlast
    · rw [hqs, hs]
      simp
      ring

/-- C8: if every element before position i has a known kind and element
i has an unknown kind, `track_a_lattice` fails with an
unknown-element-kind error, and the result does not depend on the
elements after position i (they are never processed). -/
theorem unknown_element_kind_error (p : Particle) (pre : List Element)
    (kind : String) (L : ℝ) (suf : List Element)
    (h : ∀ e ∈ pre, known e = true) :
    track_a_lattice p (pre ++ Element.other kind L :: suf)
      = Except.error (TrackError.unknownElementKind kind) := by
  induction pre generalizing p with
  | nil => rfl
  | cons e rest ih =>
    obtain ⟨p1, hp1, -⟩ := known_track_ok p e (h e (by simp))
    have hrest := ih p1 (fun e2 he2 => h e2 (by simp [he2]))
    simp [List.cons_append, track_a_lattice, hp1, hrest]

/-- Witness for C8: a drift followed by an unregistered kind and a
further drift that is never reached. -/
theorem unknown_element_kind_error_witness :
    (∀ e ∈ [Element.drift (Drift.mk 1)], known e = true) ∧
    track_a_lattice (Particle.mk 0 0 0 0 0 0 0 1 1)
        ([Element.drift (Drift.mk 1)] ++
          Element.other "Sextupole" 2 :: [Element.drift (Drift.mk 3)])
      = Except.error (TrackError.unknownElementKind "Sextupole") := by
  have h : ∀ e ∈ [Element.drift (Drift.mk 1)], known e = true := by
    intro e he
    simp at he
    simp [he, known]
  exact ⟨h, unknown_element_kind_error (Particle.mk 0 0 0 0 0 0 0 1 1)
    [Element.drift (Drift.mk 1)] "Sextupole" 2 [Element.drift (Drift.mk 3)] h⟩

/-- C7: `stub_element ele n` for n ≥ 1 returns exactly n elements, each
with length `L/n` and all other attributes equal to the original's;
tracking any particle through the n pieces advances `s` by exactly the
original `L`; and `stub_lattice` concatenates the per-element
subdivisions in order. -/
theorem stub_element_spec (ele : Element) (n : ℕ) (hn : 1 ≤ n) :
    (stub_element ele n).length = n ∧
    (∀ e2 ∈ stub_element ele n, eleL e2 = eleL ele / n ∧ sameExceptL ele e2) ∧
    (known ele = true → ∀ p : Particle, ∃ ps q,
      track_a_lattice p (stub_element ele n) = Except.ok ps ∧
      ps.getLast? = some q ∧ q.s = p.s + eleL ele) ∧
    (∀ lat : List Element,
      stub_lattice lat n = (lat.map fun e2 => stub_element e2 n).flatten) := by
  have hrepl : ∀ v, eleL (replaceL ele v) = v := by
    intro v
    cases ele <;> rfl
  have hsame : ∀ v, sameExceptL ele (replaceL ele v) := by
    intro v
    cases ele <;> simp [replaceL, sameExceptL]
  have hknown : ∀ v, known (replaceL ele v) = known ele := by
    intro v
    cases ele <;> rfl
  refine ⟨by simp [stub_element], ?_, ?_, ?_⟩
  · intro e2 he2
    have : e2 = replaceL ele (eleL ele / n) := by
      simpa [stub_element] using (List.eq_of_mem_replicate he2)
    rw [this]
    exact ⟨hrepl _, hsame _⟩
  · intro hk p
    obtain ⟨ps, q, hps, hlast, hqs⟩ := track_lattice_last_s (stub_element ele n) p
      (by
        intro e2 he2
        have : e2 = replaceL ele (eleL ele / n) := by
          simpa [stub_element] using (List.eq_of_mem_replicate he2)
        rw [this, hknown]
        exact hk)
    refine ⟨ps, q, hps, hlast, ?_⟩
    rw [hqs]
    have hne : (n : ℝ) ≠ 0 := Nat.cast_ne_zero.mpr (by omega)
    simp [stub_element, hrepl, List.map_replicate, List.sum_replicate, nsmul_eq_mul]
    field_simp
  · intro lat
    induction lat with
    | nil => rfl
    | cons e2 rest ih2 => simp [stub_lattice, ih2]

/-- Witness for C7 on a concrete drift subdivided into three pieces. -/
theorem stub_element_spec_witness :
    1 ≤ 3 ∧
    ((stub_element (Element.drift (Drift.mk 2)) 3).length = 3 ∧
    (∀ e2 ∈ stub_element (Element.drift (Drift.mk 2)) 3,
      eleL e2 = eleL (Element.drift (Drift.mk 2)) / 3 ∧
      sameExceptL (Element.drift (Drift.mk 2)) e2) ∧
    (known (Element.drift (Drift.mk 2)) = true → ∀ p : Particle, ∃ ps q,
      track_a_lattice p (stub_element (Element.drift (Drift.mk 2)) 3) = Except.ok ps ∧
      ps.getLast? = some q ∧ q.s = p.s + eleL (Element.drift (Drift.mk 2))) ∧
    (∀ lat : List Element,
      stub_lattice lat 3 = (lat.map fun e2 => stub_element e2 3).flatten)) :=
  ⟨by norm_num, stub_element_spec (Element.drift (Drift.mk 2)) 3 (by norm_num)⟩

/-- C9: `track_a_quadrupole` divides by `l*rel_p` to form the effective
strength, so with `NUM_STEPS ≥ 1` the division-checked map fails
(returns `none`) whenever the quadrupole length is 0 or `pz = -1`; in
contrast a zero-length drift is the identity map. -/
theorem quad_zero_length_division_failure (p : Particle) (q : Quadrupole)
    (hn : 1 ≤ q.NUM_STEPS) (hL : q.L = 0 ∨ p.pz = -1) :
    track_a_quadrupole_div p q = none ∧
    ∀ p2 : Particle, track_a_drift p2 (Drift.mk 0) = p2 := by
  constructor
  · have hden : q.L * (1 + p.pz) = 0 := by
      rcases hL with h | h
      · rw [h]; ring
      · rw [h]; ring
    have hstep : ∀ b1 sl st,
        quad_step_div b1 q.L sl p.p0c p.mc2 p.pz st = none := by
      intro b1 sl st
      simp [quad_step_div, div_chk, hden]
    obtain ⟨m, hm⟩ : ∃ m, q.NUM_STEPS = m + 1 := ⟨q.NUM_STEPS - 1, by omega⟩
    rw [track_a_quadrupole_div, if_neg (by omega)]
    simp only [hm, iterate_opt, hstep, Option.none_bind, Option.map_none']
  · intro p2
    cases p2 with
    | mk x px y py z pz s p0c mc2 => simp [track_a_drift]

/-- Witness for C9: a length-zero quadrupole with one step fails, while
a length-zero drift returns the particle unchanged. -/
theorem quad_zero_length_division_failure_witness :
    1 ≤ (Quadrupole.mk 0 1 1 0 0 0).NUM_STEPS ∧
    ((Quadrupole.mk 0 1 1 0 0 0).L = 0 ∨ (Particle.mk 0 0 0 0 0 0 0 1 1).pz = -1) ∧
    track_a_quadrupole_div (Particle.mk 0 0 0 0 0 0 0 1 1) (Quadrupole.mk 0 1 1 0 0 0)
      = none ∧
    track_a_drift (Particle.mk 1 2 3 4 5 6 7 8 9) (Drift.mk 0)
      = Particle.mk 1 2 3 4 5 6 7 8 9 := by
  have hn : 1 ≤ (Quadrupole.mk 0 1 1 0 0 0).NUM_STEPS := by decide
  have hL : (Quadrupole.mk 0 1 1 0 0 0).L = 0 ∨ (Particle.mk 0 0 0 0 0 0 0 1 1).pz = -1 :=
    Or.inl (by norm_num)
  refine ⟨hn, hL, ?_, ?_⟩
  · exact (quad_zero_length_division_failure (Particle.mk 0 0 0 0 0 0 0 1 1)
      (Quadrupole.mk 0 1 1 0 0 0) hn hL).1
  · exact (quad_zero_length_division_failure (Particle.mk 0 0 0 0 0 0 0 1 1)
      (Quadrupole.mk 0 1 1 0 0 0) hn hL).2 (Particle.mk 1 2 3 4 5 6 7 8 9)

end BmadX
